import Mathlib

/-!
Verification of the 4D ray-tracer core: the 4D bivector/rotor algebra
(src/bivector.rs, src/rotor.rs), the camera orientation composer and the
scene-buffer synchronizer (src/lib.rs).  All `f32` arithmetic is embedded
as real arithmetic; `u32`/byte sizes as natural numbers.
-/

set_option maxHeartbeats 1600000

/-- Embedding of `cgmath::Vector4<f32>`. -/
@[ext]
structure Vector4 where
  x : ℝ
  y : ℝ
  z : ℝ
  w : ℝ

namespace Vector4

/-- Componentwise negation, as `cgmath` defines `-v`. -/
instance : Neg Vector4 :=
  ⟨fun v => ⟨-v.x, -v.y, -v.z, -v.w⟩⟩

/-- Componentwise addition, as `cgmath` defines `u + v`. -/
instance : Add Vector4 :=
  ⟨fun u v => ⟨u.x + v.x, u.y + v.y, u.z + v.z, u.w + v.w⟩⟩

/-- Scalar multiplication, as `cgmath` defines `v * k`. -/
instance : SMul ℝ Vector4 :=
  ⟨fun k v => ⟨k * v.x, k * v.y, k * v.z, k * v.w⟩⟩

/-- The `cgmath` dot product of two 4-vectors. -/
def dot (a b : Vector4) : ℝ :=
  a.x * b.x + a.y * b.y + a.z * b.z + a.w * b.w

/-- Squared Euclidean length (`cgmath::magnitude2`). -/
def sqr_length (v : Vector4) : ℝ :=
  v.x * v.x + v.y * v.y + v.z * v.z + v.w * v.w

/-- Euclidean length (`cgmath::magnitude`). -/
noncomputable def length (v : Vector4) : ℝ :=
  Real.sqrt v.sqr_length

theorem neg_def_vec (v : Vector4) : -v = ⟨-v.x, -v.y, -v.z, -v.w⟩ := rfl

theorem add_def (u v : Vector4) :
    u + v = ⟨u.x + v.x, u.y + v.y, u.z + v.z, u.w + v.w⟩ := rfl

theorem smul_def (k : ℝ) (v : Vector4) :
    k • v = ⟨k * v.x, k * v.y, k * v.z, k * v.w⟩ := rfl

end Vector4

/-- Embedding of `BiVector4` (src/bivector.rs): six components, one per
unordered pair of the four axes. -/
@[ext]
structure BiVector4 where
  xy : ℝ
  xz : ℝ
  xw : ℝ
  yz : ℝ
  yw : ℝ
  zw : ℝ

namespace BiVector4

/-- `BiVector4::ZERO`. -/
def ZERO : BiVector4 := ⟨0, 0, 0, 0, 0, 0⟩

/-- `BiVector4::XY`, transcribed exactly as the source writes it
(note: the source sets the `xz` component, not `xy`). -/
def XY : BiVector4 := ⟨0, 1, 0, 0, 0, 0⟩

/-- `BiVector4::XZ`. -/
def XZ : BiVector4 := ⟨0, 1, 0, 0, 0, 0⟩

/-- `BiVector4::XW`. -/
def XW : BiVector4 := ⟨0, 0, 1, 0, 0, 0⟩

/-- `BiVector4::YX`. -/
def YX : BiVector4 := ⟨-1, 0, 0, 0, 0, 0⟩

/-- `BiVector4::YZ`. -/
def YZ : BiVector4 := ⟨0, 0, 0, 1, 0, 0⟩

/-- `BiVector4::YW`. -/
def YW : BiVector4 := ⟨0, 0, 0, 0, 1, 0⟩

/-- `BiVector4::ZX`. -/
def ZX : BiVector4 := ⟨0, -1, 0, 0, 0, 0⟩

/-- `BiVector4::ZY`. -/
def ZY : BiVector4 := ⟨0, 0, 0, -1, 0, 0⟩

/-- `BiVector4::ZW`. -/
def ZW : BiVector4 := ⟨0, 0, 0, 0, 0, 1⟩

/-- `BiVector4::WX`. -/
def WX : BiVector4 := ⟨0, 0, -1, 0, 0, 0⟩

/-- `BiVector4::WY`. -/
def WY : BiVector4 := ⟨0, 0, 0, 0, -1, 0⟩

/-- `BiVector4::WZ`. -/
def WZ : BiVector4 := ⟨0, 0, 0, 0, 0, -1⟩

/-- `BiVector4::sqr_length`. -/
def sqr_length (b : BiVector4) : ℝ :=
  b.xy * b.xy + b.xz * b.xz + b.xw * b.xw + b.yz * b.yz + b.yw * b.yw + b.zw * b.zw

/-- `BiVector4::length`. -/
noncomputable def length (b : BiVector4) : ℝ :=
  Real.sqrt b.sqr_length

/-- `BiVector4::normalized`: every component divided by the length, as the
source does, read in exact real arithmetic. -/
noncomputable def normalized (b : BiVector4) : BiVector4 :=
  ⟨b.xy / b.length, b.xz / b.length, b.xw / b.length,
   b.yz / b.length, b.yw / b.length, b.zw / b.length⟩

/-- The `Neg` impl of the source: componentwise sign flip. -/
instance : Neg BiVector4 :=
  ⟨fun b => ⟨-b.xy, -b.xz, -b.xw, -b.yz, -b.yw, -b.zw⟩⟩

theorem neg_def_bivec (b : BiVector4) :
    -b = ⟨-b.xy, -b.xz, -b.xw, -b.yz, -b.yw, -b.zw⟩ := rfl

/-- Coefficient of the pseudoscalar part of `b ∧ b` (the Plücker
simplicity term).  Not a source operation; used to state which
scalar-plus-bivector values are genuine rotors. -/
def pluck (b : BiVector4) : ℝ :=
  b.xy * b.zw - b.xz * b.yw + b.xw * b.yz

open Classical in
/-- In IEEE `f32`, `normalized` on a zero-length input divides `0.0` by
`0.0`, flooding every component with NaN.  Exact real arithmetic cannot
represent NaN (Lean's `x / 0 = 0` convention would silently hide the
indeterminacy), so this wrapper flags the float-indeterminate outcome as
`none` and returns the real-arithmetic result otherwise. -/
noncomputable def normalizedF (b : BiVector4) : Option BiVector4 :=
  if b.length = 0 then none else some b.normalized

end BiVector4

/-- Embedding of `Rotor4` (src/rotor.rs): a scalar plus a bivector. -/
@[ext]
structure Rotor4 where
  s : ℝ
  bv : BiVector4

/-- `wedge` (src/rotor.rs): the antisymmetric outer product of two
4-vectors. -/
def wedge (a b : Vector4) : BiVector4 :=
  { xy := (a.x * b.y) - (b.x * a.y)
    xz := (a.x * b.z) - (b.x * a.z)
    xw := (a.x * b.w) - (b.x * a.w)
    yz := (a.y * b.z) - (b.y * a.z)
    yw := (a.y * b.w) - (b.y * a.w)
    zw := (a.z * b.w) - (b.z * a.w) }

namespace Rotor4

/-- `Rotor4::IDENTITY`. -/
def IDENTITY : Rotor4 := ⟨1, BiVector4.ZERO⟩

/-- `Rotor4::sqr_length`. -/
def sqr_length (r : Rotor4) : ℝ :=
  r.s * r.s + r.bv.sqr_length

/-- `Rotor4::length`. -/
noncomputable def length (r : Rotor4) : ℝ :=
  Real.sqrt r.sqr_length

/-- `Rotor4::normalized`: the scalar and all six bivector components
divided by the length. -/
noncomputable def normalized (r : Rotor4) : Rotor4 :=
  ⟨r.s / r.length,
   ⟨r.bv.xy / r.length, r.bv.xz / r.length, r.bv.xw / r.length,
    r.bv.yz / r.length, r.bv.yw / r.length, r.bv.zw / r.length⟩⟩

open Classical in
/-- Same NaN-tracking wrapper as `BiVector4.normalizedF`: a zero-length
rotor normalizes to all-NaN in `f32`; the wrapper flags that outcome as
`none`. -/
noncomputable def normalizedF (r : Rotor4) : Option Rotor4 :=
  if r.length = 0 then none else some r.normalized

/-- `Rotor4::from_rotation_between`.  `fromV`/`toV` are the source's
`from`/`to` arguments. -/
noncomputable def from_rotation_between (fromV toV : Vector4) : Rotor4 :=
  Rotor4.normalized ⟨1 + Vector4.dot toV fromV, wedge toV fromV⟩

/-- `Rotor4::from_angle_plane`. -/
noncomputable def from_angle_plane (angle : ℝ) (plane : BiVector4) : Rotor4 :=
  Rotor4.normalized
    ⟨Real.cos (angle * 0.5),
     ⟨plane.xy * -Real.sin (angle * 0.5), plane.xz * -Real.sin (angle * 0.5),
      plane.xw * -Real.sin (angle * 0.5), plane.yz * -Real.sin (angle * 0.5),
      plane.yw * -Real.sin (angle * 0.5), plane.zw * -Real.sin (angle * 0.5)⟩⟩

/-- The `Neg` impl of the source: the scalar kept, the bivector negated
(the rotor conjugate, used by `rotate_vec` as the sandwich's right factor). -/
instance : Neg Rotor4 :=
  ⟨fun r => ⟨r.s, -r.bv⟩⟩

theorem neg_def_rotor (r : Rotor4) : -r = ⟨r.s, -r.bv⟩ := rfl

/-- `Rotor4::rotate_vec`: the closed-form sandwich product R·v·R̃,
transcribed line by line from the source. -/
def rotate_vec (r : Rotor4) (v : Vector4) : Vector4 :=
  let x := r.s * v.x + r.bv.xy * v.y + r.bv.xz * v.z + r.bv.xw * v.w
  let y := r.s * v.y - r.bv.xy * v.x + r.bv.yz * v.z + r.bv.yw * v.w
  let z := r.s * v.z - r.bv.xz * v.x - r.bv.yz * v.y + r.bv.zw * v.w
  let w := r.s * v.w - r.bv.xw * v.x - r.bv.yw * v.y - r.bv.zw * v.z
  let xyz := r.bv.xy * v.z - r.bv.xz * v.y + r.bv.yz * v.x
  let yzw := r.bv.yz * v.w - r.bv.yw * v.z + r.bv.zw * v.y
  let zwx := r.bv.xz * v.w - r.bv.xw * v.z + r.bv.zw * v.x
  let wxy := r.bv.xy * v.w - r.bv.xw * v.y + r.bv.yw * v.x
  let p := -r
  { x := x * p.s - y * p.bv.xy - z * p.bv.xz - w * p.bv.xw
          - xyz * p.bv.yz - wxy * p.bv.yw - zwx * p.bv.zw
    y := y * p.s + x * p.bv.xy - z * p.bv.yz - w * p.bv.yw
          + xyz * p.bv.xz + wxy * p.bv.xw - yzw * p.bv.zw
    z := z * p.s + x * p.bv.xz + y * p.bv.yz - w * p.bv.zw
          - xyz * p.bv.xy + zwx * p.bv.xw + yzw * p.bv.yw
    w := w * p.s + x * p.bv.xw + y * p.bv.yw + z * p.bv.zw
          - wxy * p.bv.xy - zwx * p.bv.xz - yzw * p.bv.yz }

/-- Modelled from the spec: `Rotor4::rotate_by` is called in src/lib.rs but
its definition is not under src/; the spec (§4.2) defines it as "the
geometric product of two rotors, producing the rotor equivalent to applying
one rotation after the other".  This is that geometric product in the even
subalgebra of Cl(4,0), truncated to the scalar and bivector grades — the
only grades the 7-component `Rotor4` type can represent (the grade-4
pseudoscalar part of the product is dropped).  Convention: `a.rotate_by b`
applies `a` first, then `b`, i.e. it is the product `b * a`; `geo_mul a b`
is `a * b` with `a` the left factor. -/
def geo_mul (a b : Rotor4) : Rotor4 :=
  { s := a.s * b.s - (a.bv.xy * b.bv.xy + a.bv.xz * b.bv.xz + a.bv.xw * b.bv.xw
          + a.bv.yz * b.bv.yz + a.bv.yw * b.bv.yw + a.bv.zw * b.bv.zw)
    bv :=
    { xy := a.s * b.bv.xy + b.s * a.bv.xy - a.bv.xz * b.bv.yz + a.bv.yz * b.bv.xz
            - a.bv.xw * b.bv.yw + a.bv.yw * b.bv.xw
      xz := a.s * b.bv.xz + b.s * a.bv.xz + a.bv.xy * b.bv.yz - a.bv.yz * b.bv.xy
            - a.bv.xw * b.bv.zw + a.bv.zw * b.bv.xw
      xw := a.s * b.bv.xw + b.s * a.bv.xw + a.bv.xy * b.bv.yw - a.bv.yw * b.bv.xy
            + a.bv.xz * b.bv.zw - a.bv.zw * b.bv.xz
      yz := a.s * b.bv.yz + b.s * a.bv.yz - a.bv.xy * b.bv.xz + a.bv.xz * b.bv.xy
            - a.bv.yw * b.bv.zw + a.bv.zw * b.bv.yw
      yw := a.s * b.bv.yw + b.s * a.bv.yw - a.bv.xy * b.bv.xw + a.bv.xw * b.bv.xy
            + a.bv.yz * b.bv.zw - a.bv.zw * b.bv.yz
      zw := a.s * b.bv.zw + b.s * a.bv.zw - a.bv.xz * b.bv.xw + a.bv.xw * b.bv.xz
            - a.bv.yz * b.bv.yw + a.bv.yw * b.bv.yz } }

/-- Modelled from the spec: `a.rotate_by b` composes `a` then `b` via the
geometric product `b * a` (see `geo_mul`). -/
def rotate_by (self other : Rotor4) : Rotor4 :=
  geo_mul other self

end Rotor4

/-- The composite camera rotor built every frame (src/lib.rs lines
393–402): yaw in the z–x plane, then pitch in the z–y plane, then the
"w-yaw" in the x–w plane, then the "w-pitch" in the z–w plane, chained
left-to-right via `rotate_by`. -/
noncomputable def cameraRotation (yaw pitch wyaw wpitch : ℝ) : Rotor4 :=
  (((Rotor4.from_angle_plane yaw BiVector4.ZX).rotate_by
      (Rotor4.from_angle_plane pitch BiVector4.ZY)).rotate_by
    (Rotor4.from_angle_plane wyaw BiVector4.XW)).rotate_by
    (Rotor4.from_angle_plane wpitch BiVector4.ZW)

/-- `camera_forward`: the composite rotor applied to the pure-z unit
vector. -/
noncomputable def cameraForward (yaw pitch wyaw wpitch : ℝ) : Vector4 :=
  (cameraRotation yaw pitch wyaw wpitch).rotate_vec ⟨0, 0, 1, 0⟩

/-- `camera_right`: the composite rotor applied to the pure-x unit
vector. -/
noncomputable def cameraRight (yaw pitch wyaw wpitch : ℝ) : Vector4 :=
  (cameraRotation yaw pitch wyaw wpitch).rotate_vec ⟨1, 0, 0, 0⟩

/-- `camera_up`: the composite rotor applied to the pure-y unit vector. -/
noncomputable def cameraUp (yaw pitch wyaw wpitch : ℝ) : Vector4 :=
  (cameraRotation yaw pitch wyaw wpitch).rotate_vec ⟨0, 1, 0, 0⟩

/-- The camera composer as the spec words it (§4.3): starting from the yaw
rotor, fold the remaining three (angle, plane) stages left-to-right through
`rotate_by`.  To be compared with `cameraRotation`, which is transcribed
from the source. -/
noncomputable def cameraRotationSpec (yaw pitch wyaw wpitch : ℝ) : Rotor4 :=
  List.foldl (fun acc st => acc.rotate_by (Rotor4.from_angle_plane st.1 st.2))
    (Rotor4.from_angle_plane yaw BiVector4.ZX)
    [(pitch, BiVector4.ZY), (wyaw, BiVector4.XW), (wpitch, BiVector4.ZW)]

/-- The wedge product as the spec words it: "plane(i,j) = a_i·b_j − b_i·a_j
for each axis pair".  To be compared with `wedge`, transcribed from the
source. -/
def wedgeSpecRule (a b : Vector4) : BiVector4 :=
  { xy := a.x * b.y - b.x * a.y
    xz := a.x * b.z - b.x * a.z
    xw := a.x * b.w - b.x * a.w
    yz := a.y * b.z - b.y * a.z
    yw := a.y * b.w - b.y * a.w
    zw := a.z * b.w - b.z * a.w }

/-- Truncated-to-zero on reals: how Rust casts `x / y` before `x % y`
subtracts; `%` on Rust floats is the truncated remainder. -/
noncomputable def rtrunc (r : ℝ) : ℝ :=
  if 0 ≤ r then (Int.floor r : ℝ) else (Int.ceil r : ℝ)

/-- Rust's `%` on floats: the remainder `x - y * trunc(x / y)`, with the
sign of the dividend. -/
noncomputable def rustRem (x y : ℝ) : ℝ :=
  x - y * rtrunc (x / y)

/-- The `edit_angle` wrap (src/lib.rs lines 442–444):
`*angle %= TAU; *angle += TAU; *angle %= TAU`. -/
noncomputable def edit_angle (a : ℝ) : ℝ :=
  rustRem (rustRem a (2 * Real.pi) + 2 * Real.pi) (2 * Real.pi)

/-- `camera_rotation_speed` (src/lib.rs line 839):
`90.0f32.to_radians() * 1.5`. -/
noncomputable def cameraRotationSpeed : ℝ :=
  (90 * Real.pi / 180) * 1.5

/-- The ArrowDown key mutation of the pitch angle (src/lib.rs line 878):
`self.camera.pitch -= camera_rotation_speed * ts` — no wrap is applied. -/
noncomputable def arrowDownPitch (pitch ts : ℝ) : ℝ :=
  pitch - cameraRotationSpeed * ts

/-- Numeric subset of the `Camera` state (src/lib.rs): the four fields the
editor clamps.  `f32` as ℝ, `u32` as ℕ. -/
structure Camera where
  minDistance : ℝ
  maxDistance : ℝ
  bounceCount : ℕ
  sampleCount : ℕ

/-- One pass of the camera editor panel's numeric edits and clamps
(src/lib.rs lines 478–489): the raw values the drag widgets leave in the
fields, followed by the source's clamp lines `min.max(0.0)`,
`max.max(min)`, `bounce.max(1)`, `sample.max(1)`, in source order. -/
def editCameraNumeric (rawMin rawMax : ℝ) (rawBounce rawSample : ℕ) : Camera :=
  let m := max rawMin 0
  { minDistance := m
    maxDistance := max rawMax m
    bounceCount := max rawBounce 1
    sampleCount := max rawSample 1 }

/-- CPU-side view of the GPU mirrors (src/lib.rs `App` fields): tracked
byte capacities, opaque buffer handles (generation numbers), the bind
groups recorded as the buffer handles they were built from, and a fresh-id
counter standing for `device.create_buffer`. -/
structure SyncState where
  sphereCap : ℕ
  planeCap : ℕ
  matCap : ℕ
  sphereBuf : ℕ
  planeBuf : ℕ
  matBuf : ℕ
  objectsBindGroup : ℕ × ℕ
  materialsBindGroup : ℕ
  nextId : ℕ
deriving DecidableEq

/-- Observable GPU-facing actions of one frame's upload section, in program
order. -/
inductive GpuEvent
  | writeBuffer (buf offset size : ℕ)
  | createBuffer (buf size : ℕ)
  | buildObjectsBindGroup (sphereBuf planeBuf : ℕ)
  | buildMaterialsBindGroup (matBuf : ℕ)
  | dispatch
deriving DecidableEq

/-- The per-frame upload-and-dispatch section of `App::update`
(src/lib.rs lines 674–828): spheres, then planes (each either written in
place when the serialized size fits the tracked capacity, or allocated
fresh at exactly the serialized size), then the shared objects bind group
rebuilt if either grew, then materials likewise with their own bind group,
then the compute dispatch.  Sizes are serialized byte counts. -/
def uploadAndDispatch (st : SyncState) (sphereSize planeSize matSize : ℕ) :
    SyncState × List GpuEvent :=
  let (st1, ev1) :=
    if sphereSize ≤ st.sphereCap then
      (st, [GpuEvent.writeBuffer st.sphereBuf 0 sphereSize])
    else
      ({ st with sphereBuf := st.nextId, sphereCap := sphereSize,
                 nextId := st.nextId + 1 },
       [GpuEvent.createBuffer st.nextId sphereSize])
  let (st2, ev2) :=
    if planeSize ≤ st1.planeCap then
      (st1, [GpuEvent.writeBuffer st1.planeBuf 0 planeSize])
    else
      ({ st1 with planeBuf := st1.nextId, planeCap := planeSize,
                  nextId := st1.nextId + 1 },
       [GpuEvent.createBuffer st1.nextId planeSize])
  let (st3, ev3) :=
    if sphereSize ≤ st.sphereCap ∧ planeSize ≤ st.planeCap then (st2, [])
    else
      ({ st2 with objectsBindGroup := (st2.sphereBuf, st2.planeBuf) },
       [GpuEvent.buildObjectsBindGroup st2.sphereBuf st2.planeBuf])
  let (st4, ev4) :=
    if matSize ≤ st3.matCap then
      (st3, [GpuEvent.writeBuffer st3.matBuf 0 matSize])
    else
      ({ st3 with matBuf := st3.nextId, matCap := matSize,
                  nextId := st3.nextId + 1,
                  materialsBindGroup := st3.nextId },
       [GpuEvent.createBuffer st3.nextId matSize,
        GpuEvent.buildMaterialsBindGroup st3.nextId])
  (st4, ev1 ++ ev2 ++ ev3 ++ ev4 ++ [GpuEvent.dispatch])

/-- Concrete frame state for exercising the synchronizer: sphere capacity 4,
plane capacity 100, material capacity 100, live buffer handles 0, 1, 2,
bind groups built from them, next fresh handle 10. -/
def c4State : SyncState :=
  { sphereCap := 4, planeCap := 100, matCap := 100,
    sphereBuf := 0, planeBuf := 1, matBuf := 2,
    objectsBindGroup := (0, 1), materialsBindGroup := 2, nextId := 10 }

/-! ## Helper lemmas about the rotor algebra -/

theorem vector4_sqr_length_nonneg (v : Vector4) : 0 ≤ v.sqr_length := by
  have hx := mul_self_nonneg v.x
  have hy := mul_self_nonneg v.y
  have hz := mul_self_nonneg v.z
  have hw := mul_self_nonneg v.w
  simp only [Vector4.sqr_length]
  linarith

theorem rotor4_sqr_length_nonneg (r : Rotor4) : 0 ≤ r.sqr_length := by
  have hs := mul_self_nonneg r.s
  have h1 := mul_self_nonneg r.bv.xy
  have h2 := mul_self_nonneg r.bv.xz
  have h3 := mul_self_nonneg r.bv.xw
  have h4 := mul_self_nonneg r.bv.yz
  have h5 := mul_self_nonneg r.bv.yw
  have h6 := mul_self_nonneg r.bv.zw
  simp only [Rotor4.sqr_length, BiVector4.sqr_length]
  linarith

/-- Master identity for the source's closed-form sandwich: the squared
length scales by the square of the rotor's squared norm minus four times
the squared Plücker term. -/
theorem rotate_vec_sqr_length (r : Rotor4) (v : Vector4) :
    (r.rotate_vec v).sqr_length =
      (r.sqr_length ^ 2 - 4 * r.bv.pluck ^ 2) * v.sqr_length := by
  obtain ⟨s, b1, b2, b3, b4, b5, b6⟩ := r
  obtain ⟨vx, vy, vz, vw⟩ := v
  simp only [Rotor4.rotate_vec, Rotor4.sqr_length, Vector4.sqr_length,
    BiVector4.sqr_length, BiVector4.pluck, Rotor4.neg_def_rotor, BiVector4.neg_def_bivec]
  ring

theorem rotate_vec_add (r : Rotor4) (u v : Vector4) :
    r.rotate_vec (u + v) = r.rotate_vec u + r.rotate_vec v := by
  ext <;>
    simp only [Rotor4.rotate_vec, Vector4.add_def, Rotor4.neg_def_rotor,
      BiVector4.neg_def_bivec] <;>
    ring

theorem sqr_length_add (u v : Vector4) :
    (u + v).sqr_length = u.sqr_length + v.sqr_length + 2 * Vector4.dot u v := by
  simp only [Vector4.sqr_length, Vector4.add_def, Vector4.dot]
  ring

/-- Dot-product version of the master identity, by polarization. -/
theorem rotate_vec_dot (r : Rotor4) (u v : Vector4) :
    Vector4.dot (r.rotate_vec u) (r.rotate_vec v) =
      (r.sqr_length ^ 2 - 4 * r.bv.pluck ^ 2) * Vector4.dot u v := by
  have h1 := rotate_vec_sqr_length r (u + v)
  rw [rotate_vec_add, sqr_length_add, sqr_length_add] at h1
  have h2 := rotate_vec_sqr_length r u
  have h3 := rotate_vec_sqr_length r v
  linear_combination (h1 - h2 - h3) / 2

theorem rotor4_normalized_of_unit {r : Rotor4} (h : r.sqr_length = 1) :
    r.normalized = r := by
  unfold Rotor4.normalized Rotor4.length
  rw [h, Real.sqrt_one]
  ext <;> simp

/-- Applying a normalized rotor is applying the raw rotor scaled by the
inverse squared length (each `rotate_vec` term is quadratic in the rotor
components). -/
theorem rotate_vec_normalized (r : Rotor4) (v : Vector4) :
    r.normalized.rotate_vec v = (1 / r.length ^ 2) • r.rotate_vec v := by
  obtain ⟨s, b1, b2, b3, b4, b5, b6⟩ := r
  obtain ⟨vx, vy, vz, vw⟩ := v
  ext <;>
    simp only [Rotor4.rotate_vec, Rotor4.normalized, Rotor4.neg_def_rotor,
      BiVector4.neg_def_bivec, Vector4.smul_def] <;>
    ring

/-- Lagrange identity in 4D: the squared norm of a wedge of two vectors. -/
theorem wedge_sqr_length (a b : Vector4) :
    (wedge a b).sqr_length =
      a.sqr_length * b.sqr_length - (Vector4.dot a b) ^ 2 := by
  simp only [wedge, BiVector4.sqr_length, Vector4.sqr_length, Vector4.dot]
  ring

/-- A wedge of two vectors is a simple plane: its Plücker term vanishes. -/
theorem pluck_wedge (a b : Vector4) : (wedge a b).pluck = 0 := by
  simp only [wedge, BiVector4.pluck]
  ring

/-- Closed-form expansion of the unnormalized shortest-arc rotor applied to
its own source vector. -/
theorem rotate_vec_between_raw (a b : Vector4) :
    (⟨1 + Vector4.dot b a, wedge b a⟩ : Rotor4).rotate_vec a =
      (1 - a.sqr_length * b.sqr_length) • a
        + (a.sqr_length * (2 + 2 * Vector4.dot a b)) • b := by
  obtain ⟨ax, ay, az, aw⟩ := a
  obtain ⟨bx, by', bz, bw⟩ := b
  ext <;>
    simp only [Rotor4.rotate_vec, wedge, Vector4.dot, Vector4.sqr_length,
      Rotor4.neg_def_rotor, BiVector4.neg_def_bivec, Vector4.smul_def, Vector4.add_def] <;>
    ring

theorem geo_mul_id_left (r : Rotor4) :
    Rotor4.geo_mul ⟨1, ⟨0, 0, 0, 0, 0, 0⟩⟩ r = r := by
  ext <;> simp [Rotor4.geo_mul]

theorem geo_mul_id_right (r : Rotor4) :
    Rotor4.geo_mul r ⟨1, ⟨0, 0, 0, 0, 0, 0⟩⟩ = r := by
  ext <;> simp [Rotor4.geo_mul]

/-- On a unit-norm plane, `from_angle_plane` is exactly the cosine/sine
construction (the trailing normalization divides by one). -/
theorem from_angle_plane_eval (θ : ℝ) (P : BiVector4) (hP : P.sqr_length = 1) :
    Rotor4.from_angle_plane θ P =
      ⟨Real.cos (θ * 0.5),
       ⟨P.xy * -Real.sin (θ * 0.5), P.xz * -Real.sin (θ * 0.5),
        P.xw * -Real.sin (θ * 0.5), P.yz * -Real.sin (θ * 0.5),
        P.yw * -Real.sin (θ * 0.5), P.zw * -Real.sin (θ * 0.5)⟩⟩ := by
  unfold Rotor4.from_angle_plane
  apply rotor4_normalized_of_unit
  simp only [Rotor4.sqr_length, BiVector4.sqr_length] at hP ⊢
  linear_combination (Real.sin (θ * 0.5)) ^ 2 * hP
    + Real.sin_sq_add_cos_sq (θ * 0.5)

/-! ## Claim theorems -/

/-- C1 (code-bug evidence): in the source's unit-plane table, `XY` is
identical to `XZ` (both set the xz component to 1 and leave xy at 0), and
`YX` is not the componentwise negation of `XY`; the claimed pairwise
distinctness and the antisymmetry relation plane(j,i) = −plane(i,j) fail
at this entry. -/
theorem c1_unit_plane_table_bug :
    BiVector4.XY = BiVector4.XZ ∧
    BiVector4.XY.xy = 0 ∧ BiVector4.XY.xz = 1 ∧
    BiVector4.YX ≠ -BiVector4.XY := by
  refine ⟨rfl, rfl, rfl, ?_⟩
  intro h
  have h2 := congrArg BiVector4.xy h
  norm_num [BiVector4.YX, BiVector4.XY, BiVector4.neg_def_bivec] at h2

/-- C5 (confirmed): `from_rotation_between(from, to)` is the normalization
of the rotor whose scalar is 1 + dot(to, from) and whose bivector part is
wedge(to, from), and the source's `wedge` computes exactly the spec's
componentwise rule a_i·b_j − b_i·a_j. -/
theorem c5_from_rotation_between_shape :
    (∀ a b : Vector4, wedge a b = wedgeSpecRule a b) ∧
    ∀ fromV toV : Vector4,
      Rotor4.from_rotation_between fromV toV =
        Rotor4.normalized ⟨1 + Vector4.dot toV fromV, wedgeSpecRule toV fromV⟩ := by
  exact ⟨fun a b => rfl, fun fromV toV => rfl⟩

/-- C7 (confirmed, with `rotate_by` modelled from the spec): the composite
camera rotor is the fixed left-to-right chain — yaw in the z–x plane, then
pitch in the z–y plane, then w-yaw in the x–w plane, then w-pitch in the
z–w plane, each step through `rotate_by` — and forward, right and up are
the composite applied to the pure-z, pure-x and pure-y unit vectors. -/
theorem c7_camera_composer_shape :
    ∀ yaw pitch wyaw wpitch : ℝ,
      cameraRotation yaw pitch wyaw wpitch =
        cameraRotationSpec yaw pitch wyaw wpitch ∧
      cameraForward yaw pitch wyaw wpitch =
        (cameraRotation yaw pitch wyaw wpitch).rotate_vec ⟨0, 0, 1, 0⟩ ∧
      cameraRight yaw pitch wyaw wpitch =
        (cameraRotation yaw pitch wyaw wpitch).rotate_vec ⟨1, 0, 0, 0⟩ ∧
      cameraUp yaw pitch wyaw wpitch =
        (cameraRotation yaw pitch wyaw wpitch).rotate_vec ⟨0, 1, 0, 0⟩ := by
  intro y p wy wp
  exact ⟨rfl, rfl, rfl, rfl⟩

/-- C10 (confirmed): after an editor pass over the camera numerics, the
four clamps hold: min ≥ 0, max ≥ min, bounces ≥ 1, samples ≥ 1. -/
theorem c10_camera_editor_clamps :
    ∀ (rawMin rawMax : ℝ) (rawBounce rawSample : ℕ),
      0 ≤ (editCameraNumeric rawMin rawMax rawBounce rawSample).minDistance ∧
      (editCameraNumeric rawMin rawMax rawBounce rawSample).minDistance ≤
        (editCameraNumeric rawMin rawMax rawBounce rawSample).maxDistance ∧
      1 ≤ (editCameraNumeric rawMin rawMax rawBounce rawSample).bounceCount ∧
      1 ≤ (editCameraNumeric rawMin rawMax rawBounce rawSample).sampleCount := by
  intro a b c d
  exact ⟨le_max_right _ _, le_max_right _ _, le_max_right _ _, le_max_right _ _⟩

/-- C2 (amended): a unit-norm rotor whose bivector also satisfies the
simple-plane (Plücker) condition xy·zw − xz·yw + xw·yz = 0 — as every
constructor-produced rotor does — preserves Euclidean length under
`rotate_vec`. -/
theorem c2_rotate_vec_norm_preserving (r : Rotor4) (v : Vector4)
    (h1 : r.s * r.s + r.bv.sqr_length = 1) (h2 : r.bv.pluck = 0) :
    (r.rotate_vec v).length = v.length := by
  unfold Vector4.length
  have h := rotate_vec_sqr_length r v
  have hN : r.sqr_length = 1 := h1
  rw [hN, h2] at h
  rw [h]
  norm_num

/-- C2 witness: the identity rotor satisfies both hypotheses and preserves
the length of (1,2,3,4). -/
theorem c2_rotate_vec_norm_preserving_witness :
    (Rotor4.IDENTITY.s * Rotor4.IDENTITY.s + Rotor4.IDENTITY.bv.sqr_length = 1) ∧
    Rotor4.IDENTITY.bv.pluck = 0 ∧
    (Rotor4.IDENTITY.rotate_vec ⟨1, 2, 3, 4⟩).length =
      (⟨1, 2, 3, 4⟩ : Vector4).length :=
  ⟨by norm_num [Rotor4.IDENTITY, BiVector4.ZERO, BiVector4.sqr_length],
   by norm_num [Rotor4.IDENTITY, BiVector4.ZERO, BiVector4.pluck],
   c2_rotate_vec_norm_preserving Rotor4.IDENTITY ⟨1, 2, 3, 4⟩
     (by norm_num [Rotor4.IDENTITY, BiVector4.ZERO, BiVector4.sqr_length])
     (by norm_num [Rotor4.IDENTITY, BiVector4.ZERO, BiVector4.pluck])⟩

/-- C2 counterexample: the rotor with scalar 0 and bivector xy = 3/5,
zw = 4/5 has scalar² + |bv|² = 1 — a "unit rotor" exactly as the claim
defines it — yet `rotate_vec` sends the unit vector (1,0,0,0) to a vector
of length 7/25, so length is not preserved. -/
theorem c2_unit_norm_insufficient_counterexample :
    ((⟨0, ⟨3/5, 0, 0, 0, 0, 4/5⟩⟩ : Rotor4).s * (⟨0, ⟨3/5, 0, 0, 0, 0, 4/5⟩⟩ : Rotor4).s
      + (⟨0, ⟨3/5, 0, 0, 0, 0, 4/5⟩⟩ : Rotor4).bv.sqr_length = 1) ∧
    ((⟨0, ⟨3/5, 0, 0, 0, 0, 4/5⟩⟩ : Rotor4).rotate_vec ⟨1, 0, 0, 0⟩).length ≠
      (⟨1, 0, 0, 0⟩ : Vector4).length := by
  constructor
  · norm_num [BiVector4.sqr_length]
  · have hv : (⟨0, ⟨3/5, 0, 0, 0, 0, 4/5⟩⟩ : Rotor4).rotate_vec ⟨1, 0, 0, 0⟩
        = ⟨7/25, 0, 0, 0⟩ := by
      ext <;> norm_num [Rotor4.rotate_vec, Rotor4.neg_def_rotor, BiVector4.neg_def_bivec]
    rw [hv]
    unfold Vector4.length
    have e1 : (Vector4.mk (7/25) 0 0 0).sqr_length = 49/625 := by
      norm_num [Vector4.sqr_length]
    have e2 : (Vector4.mk 1 0 0 0).sqr_length = 1 := by
      norm_num [Vector4.sqr_length]
    rw [e1, e2, Real.sqrt_one]
    rw [show (49/625 : ℝ) = (7/25)^2 by norm_num,
      Real.sqrt_sq (by norm_num : (0:ℝ) ≤ 7/25)]
    norm_num

theorem bivector4_sqr_length_nonneg (b : BiVector4) : 0 ≤ b.sqr_length := by
  have h1 := mul_self_nonneg b.xy
  have h2 := mul_self_nonneg b.xz
  have h3 := mul_self_nonneg b.xw
  have h4 := mul_self_nonneg b.yz
  have h5 := mul_self_nonneg b.yw
  have h6 := mul_self_nonneg b.zw
  simp only [BiVector4.sqr_length]
  linarith

/-- C6 (confirmed): for unit vectors a, b with b ≠ −a, the shortest-arc
rotor `from_rotation_between(a, b)` maps a onto b under `rotate_vec`. -/
theorem c6_shortest_arc_maps_endpoints (a b : Vector4)
    (ha : a.sqr_length = 1) (hb : b.sqr_length = 1) (hab : b ≠ -a) :
    (Rotor4.from_rotation_between a b).rotate_vec a = b := by
  have hdot : Vector4.dot b a = Vector4.dot a b := by
    simp only [Vector4.dot]; ring
  have hRlen : (⟨1 + Vector4.dot b a, wedge b a⟩ : Rotor4).sqr_length
      = 2 + 2 * Vector4.dot a b := by
    simp only [Rotor4.sqr_length]
    rw [wedge_sqr_length, ha, hb, hdot]
    ring
  have hd : Vector4.dot a b ≠ -1 := by
    intro hd1
    apply hab
    have hz : (b + a).sqr_length = 0 := by
      simp only [Vector4.sqr_length, Vector4.add_def, Vector4.dot] at ha hb hd1 ⊢
      linear_combination ha + hb + 2 * hd1
    have h1 := mul_self_nonneg (b.x + a.x)
    have h2 := mul_self_nonneg (b.y + a.y)
    have h3 := mul_self_nonneg (b.z + a.z)
    have h4 := mul_self_nonneg (b.w + a.w)
    simp only [Vector4.sqr_length, Vector4.add_def] at hz
    ext
    · show b.x = -a.x
      have h0 : (b.x + a.x) * (b.x + a.x) = 0 := by linarith
      have := mul_self_eq_zero.mp h0
      linarith
    · show b.y = -a.y
      have h0 : (b.y + a.y) * (b.y + a.y) = 0 := by linarith
      have := mul_self_eq_zero.mp h0
      linarith
    · show b.z = -a.z
      have h0 : (b.z + a.z) * (b.z + a.z) = 0 := by linarith
      have := mul_self_eq_zero.mp h0
      linarith
    · show b.w = -a.w
      have h0 : (b.w + a.w) * (b.w + a.w) = 0 := by linarith
      have := mul_self_eq_zero.mp h0
      linarith
  have hpos : (0:ℝ) < 2 + 2 * Vector4.dot a b := by
    have hw := wedge_sqr_length b a
    rw [ha, hb, hdot] at hw
    have hnn := bivector4_sqr_length_nonneg (wedge b a)
    have hsq : (Vector4.dot a b) ^ 2 ≤ 1 := by nlinarith
    have hge : -1 ≤ Vector4.dot a b := by nlinarith [sq_nonneg (Vector4.dot a b + 1)]
    have hgt : -1 < Vector4.dot a b := lt_of_le_of_ne hge (Ne.symm hd)
    linarith
  have hne : (2 + 2 * Vector4.dot a b) ≠ 0 := ne_of_gt hpos
  have hlen2 : (⟨1 + Vector4.dot b a, wedge b a⟩ : Rotor4).length ^ 2
      = 2 + 2 * Vector4.dot a b := by
    unfold Rotor4.length
    rw [Real.sq_sqrt (rotor4_sqr_length_nonneg _)]
    exact hRlen
  have key := rotate_vec_between_raw a b
  calc (Rotor4.from_rotation_between a b).rotate_vec a
      = (⟨1 + Vector4.dot b a, wedge b a⟩ : Rotor4).normalized.rotate_vec a := rfl
    _ = (1 / (⟨1 + Vector4.dot b a, wedge b a⟩ : Rotor4).length ^ 2) •
          ((⟨1 + Vector4.dot b a, wedge b a⟩ : Rotor4).rotate_vec a) :=
        rotate_vec_normalized _ _
    _ = (1 / (2 + 2 * Vector4.dot a b)) •
          ((1 - a.sqr_length * b.sqr_length) • a
            + (a.sqr_length * (2 + 2 * Vector4.dot a b)) • b) := by
        rw [hlen2, key]
    _ = b := by
        rw [ha, hb]
        ext <;>
          simp only [Vector4.smul_def, Vector4.add_def] <;>
          field_simp

/-- C6 witness: unit vectors (1,0,0,0) and (0,1,0,0) satisfy the
hypotheses, and the shortest-arc rotor maps the first onto the second. -/
theorem c6_shortest_arc_maps_endpoints_witness :
    ((⟨1, 0, 0, 0⟩ : Vector4).sqr_length = 1) ∧
    ((⟨0, 1, 0, 0⟩ : Vector4).sqr_length = 1) ∧
    ((⟨0, 1, 0, 0⟩ : Vector4) ≠ -(⟨1, 0, 0, 0⟩ : Vector4)) ∧
    (Rotor4.from_rotation_between ⟨1, 0, 0, 0⟩ ⟨0, 1, 0, 0⟩).rotate_vec
        ⟨1, 0, 0, 0⟩ = ⟨0, 1, 0, 0⟩ :=
  ⟨by norm_num [Vector4.sqr_length],
   by norm_num [Vector4.sqr_length],
   by
     intro h
     have h2 := congrArg Vector4.y h
     norm_num [Vector4.neg_def_vec] at h2,
   c6_shortest_arc_maps_endpoints ⟨1, 0, 0, 0⟩ ⟨0, 1, 0, 0⟩
     (by norm_num [Vector4.sqr_length])
     (by norm_num [Vector4.sqr_length])
     (by
       intro h
       have h2 := congrArg Vector4.y h
       norm_num [Vector4.neg_def_vec] at h2)⟩

theorem cos_double_arccos_half : Real.cos ((2 * Real.arccos (3/5)) * 0.5) = 3/5 := by
  have harg : (2 * Real.arccos (3/5)) * 0.5 = Real.arccos (3/5) := by ring
  rw [harg]
  exact Real.cos_arccos (by norm_num) (by norm_num)

theorem sin_double_arccos_half : Real.sin ((2 * Real.arccos (3/5)) * 0.5) = 4/5 := by
  have harg : (2 * Real.arccos (3/5)) * 0.5 = Real.arccos (3/5) := by ring
  rw [harg, Real.sin_arccos,
    show (1 - (3/5 : ℝ)^2) = (4/5)^2 by norm_num,
    Real.sqrt_sq (by norm_num : (0:ℝ) ≤ 4/5)]

theorem from_angle_plane_zero_XW :
    Rotor4.from_angle_plane 0 BiVector4.XW = ⟨1, ⟨0, 0, 0, 0, 0, 0⟩⟩ := by
  rw [from_angle_plane_eval 0 _ (by norm_num [BiVector4.sqr_length, BiVector4.XW])]
  ext <;> norm_num [BiVector4.XW]

theorem from_angle_plane_zero_ZW :
    Rotor4.from_angle_plane 0 BiVector4.ZW = ⟨1, ⟨0, 0, 0, 0, 0, 0⟩⟩ := by
  rw [from_angle_plane_eval 0 _ (by norm_num [BiVector4.sqr_length, BiVector4.ZW])]
  ext <;> norm_num [BiVector4.ZW]

theorem from_angle_plane_zero_ZX :
    Rotor4.from_angle_plane 0 BiVector4.ZX = ⟨1, ⟨0, 0, 0, 0, 0, 0⟩⟩ := by
  rw [from_angle_plane_eval 0 _ (by norm_num [BiVector4.sqr_length, BiVector4.ZX])]
  ext <;> norm_num [BiVector4.ZX]

/-- C3 counterexample: with yaw = w-pitch = 0 and
pitch = w-yaw = 2·arccos(3/5) (so the half-angle has cosine 3/5 and sine
4/5), the derived forward vector has length √(53217/390625) ≠ 1: the
truncated rotor composition loses the pseudoscalar part of the product and
the claimed orthonormality fails for this combination of the four
angles. -/
theorem c3_forward_not_unit_counterexample :
    (cameraForward 0 (2 * Real.arccos (3/5)) (2 * Real.arccos (3/5)) 0).length ≠ 1 := by
  have e_pitch : Rotor4.from_angle_plane (2 * Real.arccos (3/5)) BiVector4.ZY
      = ⟨3/5, ⟨0, 0, 0, 4/5, 0, 0⟩⟩ := by
    rw [from_angle_plane_eval _ _ (by norm_num [BiVector4.sqr_length, BiVector4.ZY])]
    ext <;>
      simp only [cos_double_arccos_half, sin_double_arccos_half, BiVector4.ZY] <;>
      norm_num
  have e_wyaw : Rotor4.from_angle_plane (2 * Real.arccos (3/5)) BiVector4.XW
      = ⟨3/5, ⟨0, 0, -(4/5), 0, 0, 0⟩⟩ := by
    rw [from_angle_plane_eval _ _ (by norm_num [BiVector4.sqr_length, BiVector4.XW])]
    ext <;>
      simp only [cos_double_arccos_half, sin_double_arccos_half, BiVector4.XW] <;>
      norm_num
  have hchain : cameraRotation 0 (2 * Real.arccos (3/5)) (2 * Real.arccos (3/5)) 0
      = ⟨9/25, ⟨0, 0, -(12/25), 12/25, 0, 0⟩⟩ := by
    unfold cameraRotation Rotor4.rotate_by
    rw [from_angle_plane_zero_ZX, from_angle_plane_zero_ZW, e_pitch, e_wyaw]
    ext <;> norm_num [Rotor4.geo_mul]
  unfold cameraForward
  rw [hchain]
  have hsq : ((⟨9/25, ⟨0, 0, -(12/25), 12/25, 0, 0⟩⟩ : Rotor4).rotate_vec
      ⟨0, 0, 1, 0⟩).sqr_length = 53217/390625 := by
    rw [rotate_vec_sqr_length]
    norm_num [Rotor4.sqr_length, BiVector4.sqr_length, BiVector4.pluck,
      Vector4.sqr_length]
  unfold Vector4.length
  rw [hsq]
  intro h
  have h2 := congrArg (fun t : ℝ => t ^ 2) h
  simp only [one_pow] at h2
  rw [Real.sq_sqrt (by norm_num : (0:ℝ) ≤ 53217/390625)] at h2
  norm_num at h2

/-- C3 (amended): with both "w" angles zero the truncated composition
stays a genuine (simple-product) rotor, and for every yaw and pitch the
derived forward/right/up are pairwise orthogonal and unit length. -/
theorem c3_orthonormal_when_w_angles_zero (yaw pitch : ℝ) :
    (cameraForward yaw pitch 0 0).length = 1 ∧
    (cameraRight yaw pitch 0 0).length = 1 ∧
    (cameraUp yaw pitch 0 0).length = 1 ∧
    Vector4.dot (cameraForward yaw pitch 0 0) (cameraRight yaw pitch 0 0) = 0 ∧
    Vector4.dot (cameraForward yaw pitch 0 0) (cameraUp yaw pitch 0 0) = 0 ∧
    Vector4.dot (cameraRight yaw pitch 0 0) (cameraUp yaw pitch 0 0) = 0 := by
  have hchain : cameraRotation yaw pitch 0 0
      = Rotor4.geo_mul (Rotor4.from_angle_plane pitch BiVector4.ZY)
          (Rotor4.from_angle_plane yaw BiVector4.ZX) := by
    unfold cameraRotation Rotor4.rotate_by
    rw [from_angle_plane_zero_XW, from_angle_plane_zero_ZW,
      geo_mul_id_left, geo_mul_id_left]
  have hy := Real.sin_sq_add_cos_sq (yaw * 0.5)
  have hp := Real.sin_sq_add_cos_sq (pitch * 0.5)
  have hN : (cameraRotation yaw pitch 0 0).sqr_length = 1 := by
    rw [hchain,
      from_angle_plane_eval pitch _ (by norm_num [BiVector4.sqr_length, BiVector4.ZY]),
      from_angle_plane_eval yaw _ (by norm_num [BiVector4.sqr_length, BiVector4.ZX])]
    simp only [Rotor4.geo_mul, Rotor4.sqr_length, BiVector4.sqr_length,
      BiVector4.ZY, BiVector4.ZX]
    linear_combination
      ((Real.cos (pitch * 0.5))^2 + (Real.sin (pitch * 0.5))^2) * hy + hp
  have hpl : (cameraRotation yaw pitch 0 0).bv.pluck = 0 := by
    rw [hchain,
      from_angle_plane_eval pitch _ (by norm_num [BiVector4.sqr_length, BiVector4.ZY]),
      from_angle_plane_eval yaw _ (by norm_num [BiVector4.sqr_length, BiVector4.ZX])]
    simp only [Rotor4.geo_mul, BiVector4.pluck, BiVector4.ZY, BiVector4.ZX]
    ring
  refine ⟨?_, ?_, ?_, ?_, ?_, ?_⟩
  · unfold cameraForward Vector4.length
    rw [rotate_vec_sqr_length, hN, hpl]
    norm_num [Vector4.sqr_length]
  · unfold cameraRight Vector4.length
    rw [rotate_vec_sqr_length, hN, hpl]
    norm_num [Vector4.sqr_length]
  · unfold cameraUp Vector4.length
    rw [rotate_vec_sqr_length, hN, hpl]
    norm_num [Vector4.sqr_length]
  · unfold cameraForward cameraRight
    rw [rotate_vec_dot, hN, hpl]
    norm_num [Vector4.dot]
  · unfold cameraForward cameraUp
    rw [rotate_vec_dot, hN, hpl]
    norm_num [Vector4.dot]
  · unfold cameraRight cameraUp
    rw [rotate_vec_dot, hN, hpl]
    norm_num [Vector4.dot]

/-- C4 counterexample: on a frame where the spheres grow (serialized size 8
against capacity 4) while the planes fit (size 4 against capacity 100), the
hyperplane mirror is overwritten in place, yet its dependent binding set —
the objects bind group, shared with the sphere mirror — is rebuilt, against
the claim's "fits implies the dependent binding set is not rebuilt". -/
theorem c4_shared_bind_group_counterexample :
    4 ≤ c4State.planeCap ∧
    GpuEvent.buildObjectsBindGroup 10 1 ∈ (uploadAndDispatch c4State 8 4 4).2 := by
  decide

/-- C4 (amended): per-mirror capacities grow exact-fit and buffers are
replaced only on growth; in-place writes land at offset 0 of the existing
buffer when the size fits; the objects bind group (shared by the sphere
and plane mirrors) is rebuilt exactly when at least one of the two grew,
the materials bind group exactly when the material mirror grew; and the
kernel dispatch is the last event of the frame, so every rebuild precedes
it. -/
theorem c4_synchronizer_policy (st : SyncState) (s p m : ℕ) :
    (uploadAndDispatch st s p m).1.sphereCap
        = (if s ≤ st.sphereCap then st.sphereCap else s) ∧
    (uploadAndDispatch st s p m).1.planeCap
        = (if p ≤ st.planeCap then st.planeCap else p) ∧
    (uploadAndDispatch st s p m).1.matCap
        = (if m ≤ st.matCap then st.matCap else m) ∧
    (uploadAndDispatch st s p m).1.sphereBuf
        = (if s ≤ st.sphereCap then st.sphereBuf else st.nextId) ∧
    (uploadAndDispatch st s p m).1.planeBuf
        = (if p ≤ st.planeCap then st.planeBuf
           else if s ≤ st.sphereCap then st.nextId else st.nextId + 1) ∧
    (if s ≤ st.sphereCap
      then GpuEvent.writeBuffer st.sphereBuf 0 s ∈ (uploadAndDispatch st s p m).2
      else GpuEvent.createBuffer (uploadAndDispatch st s p m).1.sphereBuf s
        ∈ (uploadAndDispatch st s p m).2) ∧
    (if p ≤ st.planeCap
      then GpuEvent.writeBuffer st.planeBuf 0 p ∈ (uploadAndDispatch st s p m).2
      else GpuEvent.createBuffer (uploadAndDispatch st s p m).1.planeBuf p
        ∈ (uploadAndDispatch st s p m).2) ∧
    (if m ≤ st.matCap
      then GpuEvent.writeBuffer st.matBuf 0 m ∈ (uploadAndDispatch st s p m).2
      else GpuEvent.createBuffer (uploadAndDispatch st s p m).1.matBuf m
        ∈ (uploadAndDispatch st s p m).2) ∧
    (GpuEvent.buildObjectsBindGroup (uploadAndDispatch st s p m).1.sphereBuf
        (uploadAndDispatch st s p m).1.planeBuf ∈ (uploadAndDispatch st s p m).2
      ↔ ¬(s ≤ st.sphereCap ∧ p ≤ st.planeCap)) ∧
    (GpuEvent.buildMaterialsBindGroup (uploadAndDispatch st s p m).1.matBuf
        ∈ (uploadAndDispatch st s p m).2 ↔ ¬ m ≤ st.matCap) ∧
    (uploadAndDispatch st s p m).2.getLast? = some GpuEvent.dispatch ∧
    GpuEvent.dispatch ∉ (uploadAndDispatch st s p m).2.dropLast := by
  by_cases hs : s ≤ st.sphereCap <;> by_cases hp : p ≤ st.planeCap <;>
    by_cases hm : m ≤ st.matCap <;>
    simp [uploadAndDispatch, hs, hp, hm]

open Classical in
/-- C8 counterexample: the zero bivector has norm zero, and normalizing it
(or the zero rotor) produces the indeterminate all-NaN outcome — flagged
`none` by the embedding — rather than a rejection or a defined sentinel. -/
theorem c8_zero_norm_counterexample :
    BiVector4.ZERO.sqr_length = 0 ∧
    BiVector4.normalizedF BiVector4.ZERO = none ∧
    Rotor4.normalizedF ⟨0, BiVector4.ZERO⟩ = none := by
  have hb : BiVector4.ZERO.length = 0 := by
    unfold BiVector4.length
    rw [show BiVector4.ZERO.sqr_length = 0 from by
        norm_num [BiVector4.ZERO, BiVector4.sqr_length],
      Real.sqrt_zero]
  have hr : (⟨0, BiVector4.ZERO⟩ : Rotor4).length = 0 := by
    unfold Rotor4.length
    rw [show (⟨0, BiVector4.ZERO⟩ : Rotor4).sqr_length = 0 from by
        norm_num [Rotor4.sqr_length, BiVector4.ZERO, BiVector4.sqr_length],
      Real.sqrt_zero]
  refine ⟨by norm_num [BiVector4.ZERO, BiVector4.sqr_length], ?_, ?_⟩
  · unfold BiVector4.normalizedF
    rw [if_pos hb]
  · unfold Rotor4.normalizedF
    rw [if_pos hr]

open Classical in
/-- C8 (amended): normalization is neither rejected nor given a sentinel
on zero-norm inputs — the source divides by the zero length, which in
`f32` floods every component with NaN; the embedding's NaN flag fires
exactly on the zero-norm inputs, for planes and for rotors. -/
theorem c8_zero_norm_indeterminate :
    (∀ b : BiVector4, b.normalizedF = none ↔ b.sqr_length = 0) ∧
    (∀ r : Rotor4, r.normalizedF = none ↔ r.sqr_length = 0) := by
  constructor
  · intro b
    unfold BiVector4.normalizedF
    by_cases h : b.length = 0
    · rw [if_pos h]
      simp only [true_iff, iff_true]
      unfold BiVector4.length at h
      have hle := Real.sqrt_eq_zero'.mp h
      exact le_antisymm hle (bivector4_sqr_length_nonneg b)
    · rw [if_neg h]
      simp only [reduceCtorEq, false_iff]
      intro heq
      exact h (by rw [BiVector4.length, heq, Real.sqrt_zero])
  · intro r
    unfold Rotor4.normalizedF
    by_cases h : r.length = 0
    · rw [if_pos h]
      simp only [true_iff, iff_true]
      unfold Rotor4.length at h
      have hle := Real.sqrt_eq_zero'.mp h
      exact le_antisymm hle (rotor4_sqr_length_nonneg r)
    · rw [if_neg h]
      simp only [reduceCtorEq, false_iff]
      intro heq
      exact h (by rw [Rotor4.length, heq, Real.sqrt_zero])

theorem rustRem_nonneg_lt {x y : ℝ} (hy : 0 < y) (hx : 0 ≤ x) :
    0 ≤ rustRem x y ∧ rustRem x y < y := by
  unfold rustRem rtrunc
  rw [if_pos (div_nonneg hx hy.le)]
  have hyne : y ≠ 0 := ne_of_gt hy
  have key : x - y * (⌊x / y⌋ : ℝ) = y * Int.fract (x / y) := by
    rw [Int.fract]
    field_simp
  rw [key]
  constructor
  · exact mul_nonneg hy.le (Int.fract_nonneg _)
  · calc y * Int.fract (x / y) < y * 1 :=
        mul_lt_mul_of_pos_left (Int.fract_lt_one _) hy
      _ = y := mul_one y

theorem rustRem_neg_le {x y : ℝ} (hy : 0 < y) (hx : x < 0) :
    -y < rustRem x y ∧ rustRem x y ≤ 0 := by
  unfold rustRem rtrunc
  have hdiv : x / y < 0 := div_neg_of_neg_of_pos hx hy
  rw [if_neg (not_le.mpr hdiv)]
  have h1 : (x / y : ℝ) ≤ ⌈x / y⌉ := Int.le_ceil _
  have h2 : ((⌈x / y⌉ : ℤ) : ℝ) < x / y + 1 := Int.ceil_lt_add_one _
  have hxy : y * (x / y) = x := by field_simp
  constructor
  · have h3 : y * ((⌈x / y⌉ : ℤ) : ℝ) < y * (x / y + 1) :=
      mul_lt_mul_of_pos_left h2 hy
    rw [mul_add, hxy, mul_one] at h3
    linarith
  · have h3 : y * (x / y) ≤ y * ((⌈x / y⌉ : ℤ) : ℝ) :=
      mul_le_mul_of_nonneg_left h1 hy.le
    rw [hxy] at h3
    linarith

/-- C9 (amended): the editor's `edit_angle` triple-remainder does wrap any
real angle into [0, 2π); key-driven rotation input applies no wrap (see
the counterexample). -/
theorem c9_edit_angle_wraps :
    ∀ a : ℝ, 0 ≤ edit_angle a ∧ edit_angle a < 2 * Real.pi := by
  intro a
  have hτ : (0:ℝ) < 2 * Real.pi := by linarith [Real.pi_pos]
  unfold edit_angle
  rcases le_or_lt 0 a with ha | ha
  · obtain ⟨h1, _⟩ := rustRem_nonneg_lt hτ ha
    exact rustRem_nonneg_lt hτ (by linarith)
  · obtain ⟨h1, _⟩ := rustRem_neg_le hτ ha
    exact rustRem_nonneg_lt hτ (by linarith)

/-- C9 counterexample: one ArrowDown key frame from the initial pitch 0
(elapsed time 1 s) leaves the pitch at −(3/4)π, outside [0, 2π): the
key-driven mutation path does not wrap the angle. -/
theorem c9_key_input_no_wrap_counterexample :
    ¬ (0 ≤ arrowDownPitch 0 1 ∧ arrowDownPitch 0 1 < 2 * Real.pi) := by
  rintro ⟨h, -⟩
  unfold arrowDownPitch cameraRotationSpeed at h
  nlinarith [Real.pi_pos]
